import Mathlib

set_option linter.unusedVariables false
set_option maxRecDepth 4000

/-! Verification development for the FloridaRAMA drum-console firmware.
    The two source files are embedded shallowly:
    TouchlessButton.h (proximity-sensor button state machine) and
    UdpSerial.h (line-framed serial message channel).
    Machine integers are modelled as Int; the quantities involved in the
    stated properties are far below the 16-bit AVR int range, so overflow
    does not matter for any claim below.  C++ integer division truncates
    toward zero, which is Int.tdiv. -/

abbrev Str := List Char

/-! Part 1: TouchlessButton.h -/

/-- State of one TouchlessButton instance, mirroring the member variables of
class TouchlessButton (TouchlessButton.h lines 44-79).  Fields the source
declares without an initializer (minThreshold, maxThreshold, currValue,
recoveryTime, raFinal) are given value 0 by the constructor model below;
on every path used by the theorems they are written before being read.
The SMOOTHING macro (ring-buffer length) is defined outside this file in
the repository, so it is kept as the parameter raLen. -/
structure TouchlessButton where
  isTrigger : Bool
  isToggle : Bool
  isRadio : Bool
  isCControl : Bool
  toggleOn : Bool
  buttonId : Int
  analogPin : Int
  currValue : Int
  minThreshold : Int
  maxThreshold : Int
  recoveryTime : Int
  triggerConfirmDelay : Int
  unconfirmedTrigger : Bool
  lastConfirmedTriggerTime : Int
  lastUnconfirmedTriggerTime : Int
  handRemovedConfirmDelay : Int
  handRemoved : Bool
  unconfirmedHandRemoval : Bool
  lastConfirmedHandRemovalTime : Int
  lastUnconfirmedHandRemovalTime : Int
  raValues : List Int
  raLen : Nat
  raInc : Nat
  raFinal : Int
  sensorValue : Int
deriving DecidableEq

/-- TouchlessButton::setBehavior (lines 101-124): clear all four mode flags,
then set the one selected by the behavior code; unknown codes leave all
flags clear. -/
def TouchlessButton.setBehavior (b : TouchlessButton) (behavior : Int) : TouchlessButton :=
  let b1 := { b with isTrigger := false, isToggle := false, isRadio := false, isCControl := false }
  if behavior = 1 then { b1 with isTrigger := true }
  else if behavior = 2 then { b1 with isToggle := true }
  else if behavior = 3 then { b1 with isRadio := true }
  else if behavior = 4 then { b1 with isCControl := true }
  else b1

/-- TouchlessButton::TouchlessButton (lines 83-97).  t0 is the millis()
value read at construction time; n is the SMOOTHING macro value.  The
in-class initializers of lines 44-79 supply the remaining fields. -/
def TouchlessButton.construct (id pin behavior t0 : Int) (n : Nat) : TouchlessButton :=
  TouchlessButton.setBehavior
    { isTrigger := false
      isToggle := false
      isRadio := false
      isCControl := false
      toggleOn := false
      buttonId := id
      analogPin := pin
      currValue := 0
      minThreshold := 0
      maxThreshold := 0
      recoveryTime := 0
      triggerConfirmDelay := 200
      unconfirmedTrigger := false
      lastConfirmedTriggerTime := t0
      lastUnconfirmedTriggerTime := 0
      handRemovedConfirmDelay := 500
      handRemoved := true
      unconfirmedHandRemoval := false
      lastConfirmedHandRemovalTime := 0
      lastUnconfirmedHandRemovalTime := 0
      raValues := List.replicate n 0
      raLen := n
      raInc := 0
      raFinal := 0
      sensorValue := 0 } behavior

/-- TouchlessButton::setThreshold (lines 153-156). -/
def TouchlessButton.setThreshold (b : TouchlessButton) (lo hi : Int) : TouchlessButton :=
  { b with minThreshold := lo, maxThreshold := hi }

/-- TouchlessButton::getValue (lines 128-130). -/
def TouchlessButton.getValue (b : TouchlessButton) : Int :=
  b.sensorValue

/-- TouchlessButton::sumArray (lines 143-150): left-to-right sum of the
ring-buffer slots. -/
def TouchlessButton.sumArray (b : TouchlessButton) : Int :=
  b.raValues.foldl (· + ·) 0

/-- TouchlessButton::calcRunningAverage (lines 133-140): integer division
of the slot sum by the fixed buffer length (C++ division truncates toward
zero, hence Int.tdiv). -/
def TouchlessButton.calcRunningAverage (b : TouchlessButton) : Int :=
  (TouchlessButton.sumArray b).tdiv (b.raLen : Int)

/-- The threshold test of update() line 199: raFinal >= min and
raFinal <= max. -/
def inRangeState (b : TouchlessButton) : Prop :=
  b.minThreshold ≤ b.raFinal ∧ b.raFinal ≤ b.maxThreshold

instance (b : TouchlessButton) : Decidable (inRangeState b) := by
  unfold inRangeState
  infer_instance

/-- Lines 171-173 of update(): store the new sample at the write cursor and
recompute the running average.  The sample dist is the integer distance
derived from the raw analog reading; the float conversion of lines 167-169
belongs to the external sensor collaborator and feeds in here. -/
def pushSample (b : TouchlessButton) (dist : Int) : TouchlessButton :=
  let b1 := { b with raValues := b.raValues.set b.raInc dist }
  { b1 with raFinal := TouchlessButton.calcRunningAverage b1 }

/-- Lines 315-316 of update(): advance the write cursor modulo the buffer
length. -/
def incCursor (b : TouchlessButton) : TouchlessButton :=
  { b with raInc := (b.raInc + 1) % b.raLen }

/-- The radio fan-out loop of update() lines 265-275: walk RADIO_GROUP in
order; the entry equal to this button id sets currRadioId and is sent the
smoothed value, every other entry is sent 0.  Returns the new currRadioId
and the emitted (id, value) events in loop order. -/
def radioLoop (id v : Int) (group : List Int) (curr : Int) : Int × List (Int × Int) :=
  group.foldl
    (fun acc m => if m = id then (id, acc.2 ++ [(m, v)]) else (acc.1, acc.2 ++ [(m, 0)]))
    (curr, [])

/-- The branch body of update() lines 199-312, taken after the sample has
been pushed and the running average recomputed.  curr is the file-scope
global currRadioId and group is the file-scope RADIO_GROUP array (both
defined outside this file in the repository).  All millis() reads within
one update call are modelled as the single value now.  Returns the new
button state, the new currRadioId, and the onButtonTriggered events
(buttonId, value) in call order. -/
def updCore (group : List Int) (b : TouchlessButton) (curr : Int) (now : Int) :
    TouchlessButton × Int × List (Int × Int) :=
  if inRangeState b then
    if b.unconfirmedTrigger = false then
      ({ b with unconfirmedTrigger := true, lastUnconfirmedTriggerTime := now }, curr, [])
    else if now - b.lastUnconfirmedTriggerTime > b.triggerConfirmDelay then
      let b2 := { b with sensorValue := b.raFinal }
      if b2.isTrigger = true ∧ b2.handRemoved = true then
        if now - b2.lastConfirmedTriggerTime > b2.triggerConfirmDelay then
          ({ b2 with lastConfirmedTriggerTime := now, handRemoved := false }, curr,
            [(b2.buttonId, b2.sensorValue)])
        else (b2, curr, [])
      else if b2.isToggle = true ∧ b2.handRemoved = true then
        if now - b2.lastConfirmedTriggerTime > b2.triggerConfirmDelay then
          let b3 := { b2 with
            lastConfirmedTriggerTime := now, handRemoved := false, toggleOn := !b2.toggleOn }
          (b3, curr, [(b3.buttonId, if b3.toggleOn = true then b3.sensorValue else 0)])
        else (b2, curr, [])
      else if b2.isRadio = true ∧ b2.handRemoved = true ∧ b2.buttonId ≠ curr then
        if now - b2.lastConfirmedTriggerTime > b2.triggerConfirmDelay then
          let b3 := { b2 with lastConfirmedTriggerTime := now, handRemoved := false }
          let r := radioLoop b3.buttonId b3.sensorValue group curr
          (b3, r.1, r.2)
        else (b2, curr, [])
      else if b2.isCControl = true then
        (b2, curr, [(b2.buttonId, b2.sensorValue)])
      else (b2, curr, [])
    else (b, curr, [])
  else if b.handRemoved = false then
    let b2 :=
      if b.unconfirmedHandRemoval = false then
        { b with unconfirmedHandRemoval := true, lastConfirmedHandRemovalTime := now }
      else b
    if b2.unconfirmedHandRemoval = true ∧
        now - b2.lastConfirmedHandRemovalTime > b2.handRemovedConfirmDelay then
      ({ b2 with lastConfirmedHandRemovalTime := now, handRemoved := true }, curr, [])
    else (b2, curr, [])
  else
    ({ b with unconfirmedTrigger := false, sensorValue := 0 }, curr, [])

/-- One TouchlessButton instance together with the file-scope global
currRadioId that update() reads and writes. -/
structure World where
  btn : TouchlessButton
  currRadioId : Int
deriving DecidableEq

/-- TouchlessButton::update (lines 159-319): push the new sample, run the
threshold state machine, advance the ring cursor.  Serial prints and the
recovery delay are I/O only and have no state effect. -/
def TouchlessButton.update (group : List Int) (w : World) (dist now : Int) :
    World × List (Int × Int) :=
  let b1 := pushSample w.btn dist
  let r := updCore group b1 w.currRadioId now
  ({ btn := incCursor r.1, currRadioId := r.2.1 }, r.2.2)

/-- Repeated polling: run update() on each (dist, now) pair in order,
collecting all emitted events. -/
def runBtn (group : List Int) (w : World) : List (Int × Int) → World × List (Int × Int)
  | [] => (w, [])
  | p :: ps =>
    let r := TouchlessButton.update group w p.1 p.2
    let rest := runBtn group r.1 ps
    (rest.1, r.2 ++ rest.2)

/-- The post-state trace of repeated polling: the world after each poll. -/
def btnStates (group : List Int) (w : World) : List (Int × Int) → List World
  | [] => []
  | p :: ps =>
    let w1 := (TouchlessButton.update group w p.1 p.2).1
    w1 :: btnStates group w1 ps

/-- A freshly constructed button with thresholds set, paired with an
arbitrary initial value of the global currRadioId. -/
def mkWorld (id pin behavior t0 : Int) (n : Nat) (lo hi curr0 : Int) : World :=
  { btn := TouchlessButton.setThreshold (TouchlessButton.construct id pin behavior t0 n) lo hi
    currRadioId := curr0 }

/-! Part 2: UdpSerial.h -/

/-- Whitespace test of the character class %s in the Regexp library, which
is C isspace over ASCII: space, tab, newline, vertical tab, form feed,
carriage return. -/
def isWhiteC (c : Char) : Bool :=
  c = ' ' || c = '\t' || c = '\n' || c = '\x0B' || c = '\x0C' || c = '\r'

/-- The literal pattern of UdpSerial.h line 81. -/
def hsLit : Str :=
  ['h', 'a', 'n', 'd', 's', 'h', 'a', 'k', 'e']

/-- Semantics of ms.Match with the literal pattern of line 81.  The Lua
pattern has no anchors and no special characters, so the Regexp library
reports a match exactly when the literal occurs as a contiguous substring
anywhere in the target buffer. -/
def containsHS (s : Str) : Bool :=
  (List.range (s.length + 1)).any fun i => hsLit.isPrefixOf (s.drop i)

/-- Index of the last whitespace character of the buffer, if any. -/
def lastWhitePos (s : Str) : Option Nat :=
  match s.reverse.findIdx? (fun c => isWhiteC c) with
  | some j => some (s.length - 1 - j)
  | none => none

/-- Semantics of ms.Match on the Lua pattern of line 90, capture group
included: dot matches every character (whitespace too) and plus is greedy,
so at the leftmost start position 0 the match ends at the last whitespace
character of the buffer, and the capture is everything before it; the
match needs at least one captured character, so it exists exactly when
some whitespace character has index at least 1.  A buffer whose only
whitespace is its first character has no match at any start position. -/
def matchUrlCap (s : Str) : Option Str :=
  match lastWhitePos s with
  | some k => if 1 ≤ k then some (s.take k) else none
  | none => none

/-- Semantics of ms.Match on the Lua pattern of line 101, capture group
included: the pattern is anchored at the end of the buffer and the class
matches non-whitespace only, so the capture is the maximal trailing run of
non-whitespace characters, and the match exists exactly when that run is
nonempty. -/
def matchValCap (s : Str) : Option Str :=
  let run := (s.reverse.takeWhile (fun c => !isWhiteC c)).reverse
  if run = [] then none else some run

/-- State of one UdpSerial instance: the five protocol fields that
parseMessage, update and clear read and write (UdpSerial.h lines 37-46).
The baud rate and debug flag only configure the serial transport, which
the properties below do not touch. -/
structure UdpSerial where
  readyToRead : Bool
  receivedHandshake : Bool
  inputString : Str
  inputUrl : Str
  inputVal : Str
deriving DecidableEq

/-- The field values every UdpSerial starts with (in-class initializers,
lines 37-46). -/
def UdpSerial.initState : UdpSerial :=
  { readyToRead := false
    receivedHandshake := false
    inputString := []
    inputUrl := []
    inputVal := [] }

/-- UdpSerial.h line 50. -/
def maxBufLen : Nat := 64

/-- UdpSerial::parseMessage (lines 69-110).  toCharArray(buf, maxBufLen)
copies at most maxBufLen - 1 = 63 characters of inputString into the
search buffer and NUL-terminates it, so every pattern is matched against
the first 63 characters only.  On a handshake match only the flag is set;
otherwise each of the two captures that matches overwrites its field and a
failed match leaves the field unchanged. -/
def UdpSerial.parseMessage (st : UdpSerial) : UdpSerial :=
  let buf := st.inputString.take (maxBufLen - 1)
  if containsHS buf then
    { st with receivedHandshake := true }
  else
    let st1 :=
      match matchUrlCap buf with
      | some cap => { st with inputUrl := cap }
      | none => st
    match matchValCap buf with
    | some cap => { st1 with inputVal := cap }
    | none => st1

/-- UdpSerial::clear (lines 126-132): reset the flags and empty all three
string buffers. -/
def UdpSerial.clear (st : UdpSerial) : UdpSerial :=
  { st with
    readyToRead := false
    receivedHandshake := false
    inputString := []
    inputUrl := []
    inputVal := [] }

/-- UdpSerial::stringToInt (lines 180-186), which is atoi on the
accumulated value token: skip leading whitespace, consume one optional
sign, then the maximal run of decimal digits; no digits gives 0.  The
token values in every property are tiny, so native int overflow is not in
play. -/
def UdpSerial.stringToInt (s : Str) : Int :=
  let s1 := s.dropWhile isWhiteC
  let digits (t : Str) : Int :=
    ((t.takeWhile Char.isDigit).foldl (fun a c => a * 10 + (c.toNat - 48)) 0 : Nat)
  match s1 with
  | '-' :: r => -(digits r)
  | '+' :: r => digits r
  | _ => digits s1

/-- Address left in inputUrl after parsing a completed line from a fresh
(cleared) state: the url capture when the address pattern matched,
otherwise the empty buffer clear() left behind. -/
def urlOf (line : Str) : Str :=
  match matchUrlCap (line.take (maxBufLen - 1)) with
  | some cap => cap
  | none => []

/-- Value token left in inputVal after parsing a completed line from a
fresh (cleared) state: the value capture when the value pattern matched,
otherwise the empty buffer clear() left behind. -/
def valOf (line : Str) : Str :=
  match matchValCap (line.take (maxBufLen - 1)) with
  | some cap => cap
  | none => []

/-- Events dispatched by UdpSerial::update: the registered
OnHandshakeReceived and OnMessageReceived callbacks. -/
inductive UdpEvent where
  | handshake : UdpEvent
  | message : Str → Int → UdpEvent
deriving DecidableEq

/-- The while loop of UdpSerial::update (lines 149-159): consume pending
serial bytes while some are available and readyToRead is still false; a
newline runs parseMessage and sets readyToRead (ending the loop, bytes
after the newline stay pending), any other byte is appended to
inputString.  Returns the state and the unconsumed bytes. -/
def UdpSerial.consume : UdpSerial → Str → UdpSerial × Str
  | st, [] => (st, [])
  | st, c :: rest =>
    if st.readyToRead then (st, c :: rest)
    else if c = '\n' then
      ({ UdpSerial.parseMessage st with readyToRead := true }, rest)
    else UdpSerial.consume { st with inputString := st.inputString ++ [c] } rest

/-- Result of one UdpSerial::update call: the state it leaves behind, the
pending bytes it did not consume, and the callbacks it dispatched in
order. -/
structure UdpStep where
  state : UdpSerial
  leftover : Str
  events : List UdpEvent
deriving DecidableEq

/-- UdpSerial::update (lines 147-178): consume pending bytes, then, if a
line completed, dispatch exactly one callback (OnHandshakeReceived when
the handshake flag was set, OnMessageReceived on the captured url and
value otherwise) and clear all buffers and flags. -/
def UdpSerial.update (st : UdpSerial) (input : Str) : UdpStep :=
  let r := UdpSerial.consume st input
  if r.1.readyToRead then
    if r.1.receivedHandshake then
      { state := UdpSerial.clear r.1, leftover := r.2, events := [UdpEvent.handshake] }
    else
      { state := UdpSerial.clear r.1, leftover := r.2,
        events := [UdpEvent.message r.1.inputUrl (UdpSerial.stringToInt r.1.inputVal)] }
  else
    { state := r.1, leftover := r.2, events := [] }

/-! Part 3: helper lemmas about UdpSerial -/

/-- clear() writes every field of the modelled state, so the cleared state
is the initial state. -/
theorem clear_eq_initState (st : UdpSerial) : UdpSerial.clear st = UdpSerial.initState :=
  rfl

/-- Running the byte loop on a pending stream that contains a newline:
the bytes before the first newline are appended to inputString, the line
is parsed, readyToRead is set, and the bytes after the newline stay
pending. -/
theorem consume_line (a : Str) : ∀ (st : UdpSerial) (b : Str),
    st.readyToRead = false → '\n' ∉ a →
    UdpSerial.consume st (a ++ '\n' :: b) =
      ({ UdpSerial.parseMessage { st with inputString := st.inputString ++ a } with
          readyToRead := true }, b) := by
  induction a with
  | nil =>
    intro st b hr _
    cases st with
    | mk r hs is iu iv =>
      subst hr
      simp [UdpSerial.consume]
  | cons c a ih =>
    intro st b hr hna
    have hc : ¬(c = '\n') := fun h => hna (by simp [h])
    have hna2 : '\n' ∉ a := fun h => hna (List.mem_cons_of_mem c h)
    have step : UdpSerial.consume st ((c :: a) ++ '\n' :: b) =
        UdpSerial.consume { st with inputString := st.inputString ++ [c] } (a ++ '\n' :: b) := by
      simp [UdpSerial.consume, hr, hc]
    rw [step, ih { st with inputString := st.inputString ++ [c] } b (by simp [hr]) hna2,
      List.append_cons st.inputString c a]

/-- parseMessage on a fresh state holding a completed line: either the
handshake flag is set, or the url and value fields take the fallback
values urlOf and valOf. -/
theorem parseMessage_fresh (line : Str) :
    UdpSerial.parseMessage { UdpSerial.initState with inputString := line } =
      if containsHS (line.take (maxBufLen - 1)) then
        { UdpSerial.initState with inputString := line, receivedHandshake := true }
      else
        { UdpSerial.initState with
          inputString := line, inputUrl := urlOf line, inputVal := valOf line } := by
  unfold UdpSerial.parseMessage urlOf valOf
  by_cases h : containsHS (line.take (maxBufLen - 1))
  · simp [h]
  · cases hu : matchUrlCap (line.take (maxBufLen - 1)) <;>
      cases hv : matchValCap (line.take (maxBufLen - 1)) <;>
      simp [h, hu, hv, UdpSerial.initState]

/-- One update() call on a fresh channel state whose pending bytes hold a
complete line: the line is consumed up to and including its newline, one
callback is dispatched according to the parse of the first 63 bytes, and
the state is fully cleared. -/
theorem update_fresh_line (line rest : Str) (hna : '\n' ∉ line) :
    UdpSerial.update UdpSerial.initState (line ++ '\n' :: rest) =
      { state := UdpSerial.initState, leftover := rest,
        events :=
          if containsHS (line.take (maxBufLen - 1)) then [UdpEvent.handshake]
          else [UdpEvent.message (urlOf line) (UdpSerial.stringToInt (valOf line))] } := by
  unfold UdpSerial.update
  rw [consume_line line UdpSerial.initState rest rfl hna]
  have hnil : UdpSerial.initState.inputString ++ line = line := List.nil_append line
  rw [hnil, parseMessage_fresh line]
  by_cases h : containsHS (line.take (maxBufLen - 1)) <;>
    simp [h, clear_eq_initState, UdpSerial.initState]

/-- A buffer whose characters are all non-whitespace has no address match:
the address pattern needs a whitespace character after the capture. -/
theorem matchUrlCap_of_noWhite (s : Str) (h : ∀ c ∈ s, isWhiteC c = false) :
    matchUrlCap s = none := by
  unfold matchUrlCap lastWhitePos
  have hf : s.reverse.findIdx? (fun c => isWhiteC c) = none :=
    List.findIdx?_eq_none_iff.mpr (fun c hc => h c (List.mem_reverse.mp hc))
  simp [hf]

/-- A buffer whose characters are all non-whitespace is its own maximal
trailing non-whitespace run, so the value capture is the whole buffer when
it is nonempty. -/
theorem matchValCap_of_noWhite (s : Str) (h : ∀ c ∈ s, isWhiteC c = false) :
    matchValCap s = if s = [] then none else some s := by
  unfold matchValCap
  have ht : s.reverse.takeWhile (fun c => !isWhiteC c) = s.reverse :=
    List.takeWhile_eq_self_iff.mpr (fun c hc => by simp [h c (List.mem_reverse.mp hc)])
  by_cases he : s = [] <;> simp [ht, he]

/-- C3 counterexample: the completed line nowhitespace matches neither
grammar (it has no whitespace separator), yet the channel does dispatch a
callback for it: OnMessageReceived with an empty address and value 0. -/
theorem c3_counterexample :
    (UdpSerial.update UdpSerial.initState ("nowhitespace\n".toList)).events =
      [UdpEvent.message [] 0]
    ∧ (UdpSerial.update UdpSerial.initState ("nowhitespace\n".toList)).events ≠ [] := by
  decide

/-- C3 amended: a completed line with no whitespace character (hence
matching neither grammar; the empty line is the length-zero instance) and
no handshake substring in its first 63 bytes still dispatches exactly one
callback, namely OnMessageReceived with the untouched empty address buffer
and the integer parse of the truncated line (0 when the line is not
numeric).  No OnHandshakeReceived is dispatched for it. -/
theorem c3_amended (line rest : Str) (hna : '\n' ∉ line)
    (hw : ∀ c ∈ line, isWhiteC c = false)
    (hh : containsHS (line.take (maxBufLen - 1)) = false) :
    (UdpSerial.update UdpSerial.initState (line ++ '\n' :: rest)).events =
      [UdpEvent.message [] (UdpSerial.stringToInt (line.take (maxBufLen - 1)))] := by
  rw [update_fresh_line line rest hna]
  have hw63 : ∀ c ∈ line.take (maxBufLen - 1), isWhiteC c = false :=
    fun c hc => hw c (List.take_subset _ _ hc)
  unfold urlOf valOf
  rw [matchUrlCap_of_noWhite _ hw63, matchValCap_of_noWhite _ hw63]
  by_cases he : line.take (maxBufLen - 1) = []
  · simp [hh, he]
    decide
  · simp [hh, he]

/-- C3 witness: the amended statement at the concrete line nowhitespace. -/
theorem c3_witness :
    (UdpSerial.update UdpSerial.initState ("nowhitespace".toList ++ '\n' :: [])).events =
      [UdpEvent.message [] (UdpSerial.stringToInt (("nowhitespace".toList).take (maxBufLen - 1)))] :=
  c3_amended ("nowhitespace".toList) [] (by decide) (by decide) (by decide)

/-- C4 counterexample: a line that merely contains handshake as a proper
substring is still classified as Handshake and dispatches
OnHandshakeReceived, against the exact-literal claim. -/
theorem c4_counterexample :
    (UdpSerial.update UdpSerial.initState ("ahandshakeb\n".toList)).events = [UdpEvent.handshake]
    ∧ "ahandshakeb".toList ≠ "handshake".toList := by
  decide

/-- C4 amended: a completed line is classified as Handshake (dispatching
OnHandshakeReceived and no OnMessageReceived) if and only if its first 63
bytes contain the literal handshake as a substring anywhere; the pattern
match is unanchored, so supersets of the literal also qualify. -/
theorem c4_amended (line rest : Str) (hna : '\n' ∉ line) :
    ((UdpSerial.update UdpSerial.initState (line ++ '\n' :: rest)).events = [UdpEvent.handshake])
      ↔ containsHS (line.take (maxBufLen - 1)) = true := by
  rw [update_fresh_line line rest hna]
  by_cases hh : containsHS (line.take (maxBufLen - 1)) <;> simp [hh]

/-- C4 witness: the amended equivalence at the exact literal line. -/
theorem c4_witness :
    ((UdpSerial.update UdpSerial.initState ("handshake".toList ++ '\n' :: [])).events =
      [UdpEvent.handshake])
      ↔ containsHS (("handshake".toList).take (maxBufLen - 1)) = true :=
  c4_amended ("handshake".toList) [] (by decide)

/-- C5 counterexample: a 100-byte line completed by a newline is not
dropped: the channel still dispatches a callback for it (OnMessageReceived
with empty address and value 0 here), against the no-dispatch claim. -/
theorem c5_counterexample :
    (UdpSerial.update UdpSerial.initState (List.replicate 100 'a' ++ ['\n'])).events =
      [UdpEvent.message [] 0]
    ∧ (UdpSerial.update UdpSerial.initState (List.replicate 100 'a' ++ ['\n'])).events ≠ [] := by
  decide

/-- C5 amended: when a line longer than 63 bytes is completed by a newline,
the parser sees only the first 63 bytes (the newest excess bytes are the
ones dropped, not the oldest), there is no truncated flag, and a callback
is still dispatched exactly as for the 63-byte line; all buffers and flags
are reset afterwards and the bytes after the newline stay pending, so the
next line is processed normally. -/
theorem c5_amended (line rest : Str) (hna : '\n' ∉ line) :
    (UdpSerial.update UdpSerial.initState (line ++ '\n' :: rest)).events =
      (UdpSerial.update UdpSerial.initState (line.take (maxBufLen - 1) ++ '\n' :: rest)).events
    ∧ (UdpSerial.update UdpSerial.initState (line ++ '\n' :: rest)).state = UdpSerial.initState
    ∧ (UdpSerial.update UdpSerial.initState (line ++ '\n' :: rest)).leftover = rest := by
  have hna2 : '\n' ∉ line.take (maxBufLen - 1) := fun h => hna (List.take_subset _ _ h)
  rw [update_fresh_line line rest hna, update_fresh_line _ rest hna2]
  refine ⟨?_, rfl, rfl⟩
  simp [urlOf, valOf, List.take_take]

/-- C5 witness: the amended statement at a concrete 100-byte line. -/
theorem c5_witness :
    (UdpSerial.update UdpSerial.initState (List.replicate 100 'a' ++ '\n' :: [])).events =
      (UdpSerial.update UdpSerial.initState
        ((List.replicate 100 'a').take (maxBufLen - 1) ++ '\n' :: [])).events
    ∧ (UdpSerial.update UdpSerial.initState (List.replicate 100 'a' ++ '\n' :: [])).state =
        UdpSerial.initState
    ∧ (UdpSerial.update UdpSerial.initState (List.replicate 100 'a' ++ '\n' :: [])).leftover = [] :=
  c5_amended (List.replicate 100 'a') [] (by decide)

/-- C6 counterexample: on the line with leading, internal and trailing
whitespace the parser does not extract address foo and value 9: the
address capture is everything before the last whitespace character and the
value pattern cannot match a line ending in whitespace, so the dispatch is
OnMessageReceived with that long address and value 0. -/
theorem c6_counterexample :
    (UdpSerial.update UdpSerial.initState ("  foo   9  \n".toList)).events =
      [UdpEvent.message ("  foo   9 ".toList) 0]
    ∧ (UdpSerial.update UdpSerial.initState ("  foo   9  \n".toList)).events ≠
      [UdpEvent.message ("foo".toList) 9] := by
  decide

/-- C6 amended: for a completed non-handshake line the dispatched address
is the capture of the address pattern, which is everything strictly before
the last whitespace character of the 63-byte-truncated line when at least
one character precedes it (empty otherwise), and the dispatched value is
the integer parse of the trailing run of non-whitespace characters (empty,
parsing to 0, when the line ends in whitespace).  The single-space command
line behaves as the claim says; the padded line does not. -/
theorem c6_amended :
    (∀ line rest, '\n' ∉ line → containsHS (line.take (maxBufLen - 1)) = false →
      (UdpSerial.update UdpSerial.initState (line ++ '\n' :: rest)).events =
        [UdpEvent.message (urlOf line) (UdpSerial.stringToInt (valOf line))])
    ∧ (UdpSerial.update UdpSerial.initState ("/console/drum/b1 5\n".toList)).events =
        [UdpEvent.message ("/console/drum/b1".toList) 5]
    ∧ (UdpSerial.update UdpSerial.initState ("  foo   9  \n".toList)).events =
        [UdpEvent.message ("  foo   9 ".toList) 0] := by
  refine ⟨fun line rest hna hh => ?_, by decide, by decide⟩
  rw [update_fresh_line line rest hna]
  simp [hh]

/-- C6 witness: the general part of the amended statement at a concrete
command line. -/
theorem c6_witness :
    (UdpSerial.update UdpSerial.initState ("ab 7".toList ++ '\n' :: [])).events =
      [UdpEvent.message (urlOf ("ab 7".toList)) (UdpSerial.stringToInt (valOf ("ab 7".toList)))] :=
  c6_amended.1 ("ab 7".toList) [] (by decide) (by decide)

/-- C10: one update() call dispatches at most one callback; when the
pending bytes contain a newline, consumption stops at the first newline
(the bytes after it are left pending), exactly one callback is dispatched,
and every buffer and flag is cleared afterwards. -/
theorem c10_single_dispatch (st : UdpSerial) (input : Str) (hr : st.readyToRead = false) :
    (UdpSerial.update st input).events.length ≤ 1
    ∧ ∀ a b, input = a ++ '\n' :: b → '\n' ∉ a →
        (UdpSerial.update st input).leftover = b
        ∧ (UdpSerial.update st input).state = UdpSerial.initState
        ∧ (UdpSerial.update st input).events.length = 1 := by
  constructor
  · simp only [UdpSerial.update]
    split_ifs <;> simp
  · intro a b hib hna
    subst hib
    simp only [UdpSerial.update, consume_line a st b hr hna]
    split_ifs <;> simp [clear_eq_initState]

/-- C10 witness: the statement at a concrete state and byte stream. -/
theorem c10_witness :
    (UdpSerial.update UdpSerial.initState ("hi".toList ++ '\n' :: "later".toList)).leftover =
      "later".toList
    ∧ (UdpSerial.update UdpSerial.initState ("hi".toList ++ '\n' :: "later".toList)).state =
        UdpSerial.initState
    ∧ (UdpSerial.update UdpSerial.initState ("hi".toList ++ '\n' :: "later".toList)).events.length =
        1 :=
  (c10_single_dispatch UdpSerial.initState ("hi".toList ++ '\n' :: "later".toList) rfl).2
    ("hi".toList) ("later".toList) rfl (by decide)

/-! Part 4: helper lemmas about TouchlessButton -/

/-- update() unfolded into its three stages. -/
theorem update_eq (group : List Int) (w : World) (dist now : Int) :
    TouchlessButton.update group w dist now =
      ({ btn := incCursor (updCore group (pushSample w.btn dist) w.currRadioId now).1,
         currRadioId := (updCore group (pushSample w.btn dist) w.currRadioId now).2.1 },
       (updCore group (pushSample w.btn dist) w.currRadioId now).2.2) :=
  rfl

/-- The state-machine branch never touches the smoothing fields, the
thresholds, the two configured delays, the id, or the mode flags. -/
theorem updCore_frame (group : List Int) (b : TouchlessButton) (curr now : Int) :
    (updCore group b curr now).1.raFinal = b.raFinal
    ∧ (updCore group b curr now).1.minThreshold = b.minThreshold
    ∧ (updCore group b curr now).1.maxThreshold = b.maxThreshold
    ∧ (updCore group b curr now).1.triggerConfirmDelay = b.triggerConfirmDelay
    ∧ (updCore group b curr now).1.handRemovedConfirmDelay = b.handRemovedConfirmDelay
    ∧ (updCore group b curr now).1.raValues = b.raValues
    ∧ (updCore group b curr now).1.raLen = b.raLen
    ∧ (updCore group b curr now).1.raInc = b.raInc := by
  simp only [updCore]
  split_ifs <;> simp

/-- The threshold test seen by one update() call is the threshold test on
the state right after the sample push. -/
theorem inRangeState_update (group : List Int) (w : World) (d t : Int) :
    inRangeState ((TouchlessButton.update group w d t).1.btn) ↔
      inRangeState (pushSample w.btn d) := by
  obtain ⟨h1, h2, h3, -⟩ := updCore_frame group (pushSample w.btn d) w.currRadioId t
  rw [update_eq]
  simp [incCursor, inRangeState, h1, h2, h3]

/-- Out-of-range poll while the hand counts as removed (the final else of
update(), lines 307-312): disarm the enter gate and zero the sensor
value. -/
theorem updCore_out_idle (group : List Int) (b : TouchlessButton) (curr now : Int)
    (hh : b.handRemoved = true) (hout : ¬ inRangeState b) :
    updCore group b curr now = ({ b with unconfirmedTrigger := false, sensorValue := 0 }, curr, []) := by
  unfold updCore
  rw [if_neg hout, if_neg (by simp [hh])]

/-- First in-range poll with the enter gate unarmed (lines 202-205): arm
it, record the time, emit nothing. -/
theorem updCore_arm (group : List Int) (b : TouchlessButton) (curr now : Int)
    (hu : b.unconfirmedTrigger = false) (hin : inRangeState b) :
    updCore group b curr now =
      ({ b with unconfirmedTrigger := true, lastUnconfirmedTriggerTime := now }, curr, []) := by
  unfold updCore
  rw [if_pos hin, if_pos hu]

/-- In-range poll with the enter gate armed but the confirm delay not yet
exceeded (line 208 test false): nothing changes and nothing is emitted. -/
theorem updCore_held (group : List Int) (b : TouchlessButton) (curr now : Int)
    (hu : b.unconfirmedTrigger = true) (hin : inRangeState b)
    (hlt : ¬(now - b.lastUnconfirmedTriggerTime > b.triggerConfirmDelay)) :
    updCore group b curr now = (b, curr, []) := by
  unfold updCore
  rw [if_pos hin, if_neg (by simp [hu]), if_neg hlt]

/-- Out-of-range poll while the hand is still considered present (the
removal branch, lines 290-305): the stored sensor value is untouched and
nothing is emitted. -/
theorem updCore_removal (group : List Int) (b : TouchlessButton) (curr now : Int)
    (hh : b.handRemoved = false) (hout : ¬ inRangeState b) :
    (updCore group b curr now).1.sensorValue = b.sensorValue
    ∧ (updCore group b curr now).2.2 = [] := by
  unfold updCore
  rw [if_neg hout, if_pos hh]
  split_ifs <;> simp <;> split_ifs <;> simp

/-- C9 counterexample: a reachable Releasing state (smoothed value out of
range, exit gate armed, hand removal not yet confirmed, so the button is
not Active) in which getValue() still returns 15, not 0.  Momentary button,
thresholds 10..20, smoothing length 1: in-range polls at 1000 and 1300
(the trigger fires at 1300, storing sensor value 15), then an out-of-range
poll at 1400. -/
theorem c9_counterexample :
    TouchlessButton.getValue ((runBtn [] (mkWorld 1 0 1 0 1 10 20 0)
        [(15, 1000), (15, 1300), (50, 1400)]).1.btn) = 15
    ∧ (runBtn [] (mkWorld 1 0 1 0 1 10 20 0)
        [(15, 1000), (15, 1300), (50, 1400)]).1.btn.handRemoved = false
    ∧ ¬ inRangeState (runBtn [] (mkWorld 1 0 1 0 1 10 20 0)
        [(15, 1000), (15, 1300), (50, 1400)]).1.btn
    ∧ (runBtn [] (mkWorld 1 0 1 0 1 10 20 0)
        [(15, 1000), (15, 1300), (50, 1400)]).1.btn.unconfirmedHandRemoval = true := by
  decide

/-- C9 amended: on an out-of-range poll the stored sensor value is reset
to 0 only when hand removal has already been confirmed (handRemoved true,
the Idle branch); while the hand is still considered present (Releasing,
handRemoved false) the stored value, and hence getValue(), keeps its last
Active value. -/
theorem c9_amended (group : List Int) (w : World) (d now : Int)
    (hout : ¬ inRangeState (pushSample w.btn d)) :
    (w.btn.handRemoved = true →
      TouchlessButton.getValue ((TouchlessButton.update group w d now).1.btn) = 0)
    ∧ (w.btn.handRemoved = false →
      TouchlessButton.getValue ((TouchlessButton.update group w d now).1.btn) =
        TouchlessButton.getValue w.btn) := by
  constructor
  · intro hh
    have hh2 : (pushSample w.btn d).handRemoved = true := by simp [pushSample, hh]
    rw [update_eq, updCore_out_idle group _ _ _ hh2 hout]
    simp [incCursor, TouchlessButton.getValue]
  · intro hh
    have hh2 : (pushSample w.btn d).handRemoved = false := by simp [pushSample, hh]
    obtain ⟨hsv, -⟩ := updCore_removal group (pushSample w.btn d) w.currRadioId now hh2 hout
    rw [update_eq]
    simp only [incCursor, TouchlessButton.getValue]
    rw [hsv]
    simp [pushSample]

/-- C9 witness: the amended statement at a fresh momentary button seeing
an out-of-range sample. -/
theorem c9_witness :
    ((mkWorld 1 0 1 0 1 10 20 0).btn.handRemoved = true →
      TouchlessButton.getValue
        ((TouchlessButton.update [] (mkWorld 1 0 1 0 1 10 20 0) 50 0).1.btn) = 0)
    ∧ ((mkWorld 1 0 1 0 1 10 20 0).btn.handRemoved = false →
      TouchlessButton.getValue
          ((TouchlessButton.update [] (mkWorld 1 0 1 0 1 10 20 0) 50 0).1.btn) =
        TouchlessButton.getValue (mkWorld 1 0 1 0 1 10 20 0).btn) :=
  c9_amended [] (mkWorld 1 0 1 0 1 10 20 0) 50 0 (by decide)

/-- C2 failing run: momentary button, thresholds 10..20, smoothing length
1, trigger confirm delay 200, hand-removal confirm delay 500.  First cycle:
in range at 1000 and 1300 (fires), out of range at 1400 and 2000 (removal
armed at 1400, correctly confirmed at 2000).  Second cycle: in range at
2100 (fires again).  After these five polls the exit gate is still armed
(unconfirmedHandRemoval was never reset) and its timestamp is stale, so
the very first out-of-range poll of the second cycle, at 2700, confirms
hand removal immediately: handRemoved flips to true although the value has
been out of range for 0 ms, far less than the 500 ms the claim requires.
This is the slip behind claim C2. -/
theorem c2_code_bug :
    inRangeState (runBtn [] (mkWorld 1 0 1 0 1 10 20 0)
        [(15, 1000), (15, 1300), (50, 1400), (50, 2000), (15, 2100)]).1.btn
    ∧ (runBtn [] (mkWorld 1 0 1 0 1 10 20 0)
        [(15, 1000), (15, 1300), (50, 1400), (50, 2000), (15, 2100)]).1.btn.handRemoved = false
    ∧ (runBtn [] (mkWorld 1 0 1 0 1 10 20 0)
        [(15, 1000), (15, 1300), (50, 1400), (50, 2000), (15, 2100)]).1.btn.unconfirmedHandRemoval
        = true
    ∧ (TouchlessButton.update []
        (runBtn [] (mkWorld 1 0 1 0 1 10 20 0)
          [(15, 1000), (15, 1300), (50, 1400), (50, 2000), (15, 2100)]).1
        50 2700).1.btn.handRemoved = true
    ∧ ¬ inRangeState (TouchlessButton.update []
        (runBtn [] (mkWorld 1 0 1 0 1 10 20 0)
          [(15, 1000), (15, 1300), (50, 1400), (50, 2000), (15, 2100)]).1
        50 2700).1.btn := by
  decide

/-- Folding addition from any accumulator. -/
theorem foldl_add_eq (l : List Int) : ∀ a : Int, l.foldl (· + ·) a = a + l.sum := by
  induction l with
  | nil => intro a; simp
  | cons x xs ih =>
    intro a
    simp only [List.foldl, ih, List.sum_cons]
    ring

/-- The loop of sumArray computes the sum of the slot list. -/
theorem sumArray_eq (b : TouchlessButton) : TouchlessButton.sumArray b = b.raValues.sum := by
  simpa [TouchlessButton.sumArray] using foldl_add_eq b.raValues 0

/-- One update() call, seen through the smoothing fields only: the slot at
the write cursor is overwritten with the new sample, the length is
unchanged, and the cursor advances modulo the length. -/
theorem update_ring (group : List Int) (w : World) (d t : Int) :
    (TouchlessButton.update group w d t).1.btn.raValues = w.btn.raValues.set w.btn.raInc d
    ∧ (TouchlessButton.update group w d t).1.btn.raLen = w.btn.raLen
    ∧ (TouchlessButton.update group w d t).1.btn.raInc = (w.btn.raInc + 1) % w.btn.raLen := by
  obtain ⟨-, -, -, -, -, hv, hl, hi⟩ := updCore_frame group (pushSample w.btn d) w.currRadioId t
  rw [update_eq]
  refine ⟨?_, ?_, ?_⟩
  · simp only [incCursor]
    rw [hv]
    simp [pushSample]
  · simp only [incCursor]
    rw [hl]
    simp [pushSample]
  · simp only [incCursor]
    rw [hi, hl]
    simp [pushSample]

/-- Invariant of the ring buffer along a run: having pushed the samples of
pref into a buffer that still holds its construction zeroes beyond them,
running further polls appends their samples and keeps the trailing zeroes,
as long as the total stays within the fixed length. -/
theorem ring_run (group : List Int) : ∀ (ps : List (Int × Int)) (w : World) (pref : List Int),
    w.btn.raValues = pref ++ List.replicate (w.btn.raLen - pref.length) 0 →
    w.btn.raInc = pref.length % w.btn.raLen →
    pref.length + ps.length ≤ w.btn.raLen →
    (runBtn group w ps).1.btn.raValues =
      (pref ++ ps.map Prod.fst) ++ List.replicate (w.btn.raLen - (pref.length + ps.length)) 0
    ∧ (runBtn group w ps).1.btn.raLen = w.btn.raLen := by
  intro ps
  induction ps with
  | nil =>
    intro w pref h1 h2 h3
    simp [runBtn, h1]
  | cons p ps ih =>
    intro w pref h1 h2 h3
    have hlt : pref.length < w.btn.raLen := by
      simp only [List.length_cons] at h3
      omega
    obtain ⟨hv, hl, hi⟩ := update_ring group w p.1 p.2
    have hmod : pref.length % w.btn.raLen = pref.length := Nat.mod_eq_of_lt hlt
    have hrep : List.replicate (w.btn.raLen - pref.length) (0:Int) =
        0 :: List.replicate (w.btn.raLen - (pref.length + 1)) 0 := by
      have he : w.btn.raLen - pref.length = (w.btn.raLen - (pref.length + 1)) + 1 := by omega
      rw [he, List.replicate_succ]
    have hval : (TouchlessButton.update group w p.1 p.2).1.btn.raValues =
        (pref ++ [p.1]) ++ List.replicate (w.btn.raLen - (pref.length + 1)) 0 := by
      rw [hv, h1, h2, hmod, hrep]
      simp [List.set_append]
    have hinc : (TouchlessButton.update group w p.1 p.2).1.btn.raInc =
        (pref ++ [p.1]).length % (TouchlessButton.update group w p.1 p.2).1.btn.raLen := by
      rw [hi, h2, hmod, hl]
      simp
    have hval2 : (TouchlessButton.update group w p.1 p.2).1.btn.raValues =
        (pref ++ [p.1]) ++
          List.replicate ((TouchlessButton.update group w p.1 p.2).1.btn.raLen -
            (pref ++ [p.1]).length) 0 := by
      rw [hval, hl]
      simp
    have h3b : (pref ++ [p.1]).length + ps.length ≤
        (TouchlessButton.update group w p.1 p.2).1.btn.raLen := by
      rw [hl]
      simp only [List.length_append, List.length_cons, List.length_nil] at h3 ⊢
      omega
    obtain ⟨hx, hy⟩ := ih (TouchlessButton.update group w p.1 p.2).1 (pref ++ [p.1]) hval2 hinc h3b
    constructor
    · have hfin : (runBtn group w (p :: ps)).1 = (runBtn group (TouchlessButton.update group w p.1 p.2).1 ps).1 := by
        simp [runBtn]
      rw [hfin, hx, hl]
      simp only [List.length_append, List.length_cons, List.length_nil, List.map_cons]
      rw [← List.append_cons pref p.1 (ps.map Prod.fst)]
      congr 2
      omega
    · have hfin : (runBtn group w (p :: ps)).1 = (runBtn group (TouchlessButton.update group w p.1 p.2).1 ps).1 := by
        simp [runBtn]
      rw [hfin, hy, hl]

/-- The constructor model with thresholds applied: the fields the claims
depend on, for any behavior code. -/
theorem mkWorld_fields (id pin behavior t0 : Int) (n : Nat) (lo hi curr0 : Int) :
    (mkWorld id pin behavior t0 n lo hi curr0).btn.raValues = List.replicate n 0
    ∧ (mkWorld id pin behavior t0 n lo hi curr0).btn.raLen = n
    ∧ (mkWorld id pin behavior t0 n lo hi curr0).btn.raInc = 0
    ∧ (mkWorld id pin behavior t0 n lo hi curr0).btn.unconfirmedTrigger = false
    ∧ (mkWorld id pin behavior t0 n lo hi curr0).btn.handRemoved = true
    ∧ (mkWorld id pin behavior t0 n lo hi curr0).btn.triggerConfirmDelay = 200 := by
  simp only [mkWorld, TouchlessButton.construct, TouchlessButton.setThreshold,
    TouchlessButton.setBehavior]
  split_ifs <;> simp

/-- C8: starting from construction, after any number of polls that does
not exceed the buffer length, the running average is the integer sum of
the pushed samples divided (truncating) by the fixed length, because the
slots not yet overwritten still hold their construction zeroes; and the
buffer length never changes. -/
theorem c8_running_average (id pin behavior t0 lo hi curr0 : Int) (n : Nat) (group : List Int)
    (ps : List (Int × Int)) (hlen : ps.length ≤ n) :
    TouchlessButton.calcRunningAverage
        ((runBtn group (mkWorld id pin behavior t0 n lo hi curr0) ps).1.btn) =
      ((ps.map Prod.fst).sum).tdiv (n : Int)
    ∧ ((runBtn group (mkWorld id pin behavior t0 n lo hi curr0) ps).1.btn.raValues).length = n := by
  obtain ⟨hv, hl, hi0, -, -, -⟩ := mkWorld_fields id pin behavior t0 n lo hi curr0
  have h1 : (mkWorld id pin behavior t0 n lo hi curr0).btn.raValues =
      [] ++ List.replicate ((mkWorld id pin behavior t0 n lo hi curr0).btn.raLen -
        ([] : List Int).length) 0 := by
    simp [hv, hl]
  have h2 : (mkWorld id pin behavior t0 n lo hi curr0).btn.raInc =
      ([] : List Int).length % (mkWorld id pin behavior t0 n lo hi curr0).btn.raLen := by
    simp [hi0]
  have h3 : ([] : List Int).length + ps.length ≤
      (mkWorld id pin behavior t0 n lo hi curr0).btn.raLen := by
    simp [hl, hlen]
  obtain ⟨hvals, hlen2⟩ := ring_run group ps (mkWorld id pin behavior t0 n lo hi curr0) [] h1 h2 h3
  constructor
  · rw [TouchlessButton.calcRunningAverage, sumArray_eq, hvals, hlen2, hl]
    simp [List.sum_append, List.sum_replicate]
  · rw [hvals]
    simp only [List.length_append, List.length_replicate, List.length_map, List.length_nil,
      List.nil_append, hl]
    omega

/-- C8 witness: a two-slot buffer after one push averages (3 + 0) / 2. -/
theorem c8_witness :
    TouchlessButton.calcRunningAverage
        ((runBtn [] (mkWorld 1 0 1 0 2 10 20 0) [(3, 0)]).1.btn) =
      (([((3:Int), (0:Int))].map Prod.fst).sum).tdiv ((2:Nat) : Int)
    ∧ ((runBtn [] (mkWorld 1 0 1 0 2 10 20 0) [(3, 0)]).1.btn.raValues).length = 2 :=
  c8_running_average 1 0 1 0 10 20 0 2 [] [(3, 0)] (by decide)

/-- Closed form of the radio fan-out fold, from any accumulator. -/
theorem radioFold_eq (id v : Int) : ∀ (group : List Int) (c : Int) (l : List (Int × Int)),
    group.foldl
      (fun acc m => if m = id then (id, acc.2 ++ [(m, v)]) else (acc.1, acc.2 ++ [(m, 0)]))
      (c, l) =
      (if id ∈ group then id else c,
        l ++ group.map (fun m => if m = id then (m, v) else (m, 0))) := by
  intro group
  induction group with
  | nil =>
    intro c l
    simp
  | cons m g ih =>
    intro c l
    by_cases hm : m = id
    · subst hm
      simp only [List.foldl, if_pos rfl]
      rw [ih]
      simp
    · have hm2 : ¬(id = m) := fun h => hm h.symm
      simp only [List.foldl, if_neg hm]
      rw [ih]
      simp [hm, hm2, List.mem_cons]

/-- Closed form of the radio fan-out loop: the new currRadioId is the
button id when the id occurs in the group, and the events are one entry
per group member in order, the member equal to the id getting the value
and every other member 0. -/
theorem radioLoop_eq (id v : Int) (group : List Int) (curr : Int) :
    radioLoop id v group curr =
      (if id ∈ group then id else curr,
        group.map (fun m => if m = id then (m, v) else (m, 0))) := by
  unfold radioLoop
  rw [radioFold_eq]
  simp

/-- Confirmed activation taken through the radio branch of update()
(lines 255-277): the events are the fan-out over the group on the freshly
stored smoothed value, currRadioId becomes the button id when it belongs
to the group, and handRemoved is set false. -/
theorem updCore_radio (group : List Int) (b : TouchlessButton) (curr now : Int)
    (hT : b.isTrigger = false) (hG : b.isToggle = false) (hR : b.isRadio = true)
    (hu : b.unconfirmedTrigger = true) (hhr : b.handRemoved = true)
    (hin : inRangeState b)
    (hconf : now - b.lastUnconfirmedTriggerTime > b.triggerConfirmDelay)
    (hcool : now - b.lastConfirmedTriggerTime > b.triggerConfirmDelay)
    (hne : b.buttonId ≠ curr) :
    (updCore group b curr now).2.2 =
      group.map (fun m => if m = b.buttonId then (m, b.raFinal) else (m, 0))
    ∧ (updCore group b curr now).2.1 = (if b.buttonId ∈ group then b.buttonId else curr)
    ∧ (updCore group b curr now).1.handRemoved = false := by
  unfold updCore
  rw [if_pos hin, if_neg (by simp [hu]), if_pos hconf]
  simp [hT, hG, hR, hhr, hcool, hne, radioLoop_eq]

/-- Confirmed activation of a radio button whose id is already the active
one: the radio guard fails and, with the other mode flags clear, the
update emits nothing. -/
theorem updCore_radio_already (group : List Int) (b : TouchlessButton) (curr now : Int)
    (hT : b.isTrigger = false) (hG : b.isToggle = false) (hC : b.isCControl = false)
    (hu : b.unconfirmedTrigger = true)
    (hin : inRangeState b)
    (hconf : now - b.lastUnconfirmedTriggerTime > b.triggerConfirmDelay)
    (heq : b.buttonId = curr) :
    (updCore group b curr now).2.2 = [] := by
  unfold updCore
  rw [if_pos hin, if_neg (by simp [hu]), if_pos hconf]
  simp [hT, hG, hC, heq]

/-- C7: a radio-mode button whose id is in the group, reaching a confirmed
activation (enter gate confirmed, cool-down elapsed, hand removed) while
its id is not the registry's active one, emits exactly one
onButtonTriggered per group member in that dispatch: the smoothed value
for its own id and 0 for every other member; the active id becomes this
button's id and handRemoved flips to false.  When its id is already the
active one, the dispatch emits nothing. -/
theorem c7_radio (group : List Int) (w : World) (d now : Int)
    (hT : w.btn.isTrigger = false) (hG : w.btn.isToggle = false)
    (hR : w.btn.isRadio = true) (hC : w.btn.isCControl = false)
    (hu : w.btn.unconfirmedTrigger = true)
    (hhr : w.btn.handRemoved = true)
    (hin : inRangeState (pushSample w.btn d))
    (hconf : now - w.btn.lastUnconfirmedTriggerTime > w.btn.triggerConfirmDelay)
    (hcool : now - w.btn.lastConfirmedTriggerTime > w.btn.triggerConfirmDelay)
    (hmem : w.btn.buttonId ∈ group) :
    (w.btn.buttonId ≠ w.currRadioId →
      (TouchlessButton.update group w d now).2 =
        group.map (fun m =>
          if m = w.btn.buttonId then (m, (pushSample w.btn d).raFinal) else (m, 0))
      ∧ (TouchlessButton.update group w d now).1.currRadioId = w.btn.buttonId
      ∧ (TouchlessButton.update group w d now).1.btn.handRemoved = false)
    ∧ (w.btn.buttonId = w.currRadioId →
      (TouchlessButton.update group w d now).2 = []) := by
  constructor
  · intro hne
    obtain ⟨he, hc, hh⟩ := updCore_radio group (pushSample w.btn d) w.currRadioId now
      (by simpa [pushSample] using hT) (by simpa [pushSample] using hG)
      (by simpa [pushSample] using hR) (by simpa [pushSample] using hu)
      (by simpa [pushSample] using hhr) hin
      (by simpa [pushSample] using hconf) (by simpa [pushSample] using hcool)
      (by simpa [pushSample] using hne)
    rw [update_eq]
    refine ⟨?_, ?_, ?_⟩
    · rw [he]
      simp [pushSample]
    · rw [hc]
      simp only [pushSample]
      simp [hmem]
    · simp only [incCursor]
      simp [hh]
  · intro heq
    have he := updCore_radio_already group (pushSample w.btn d) w.currRadioId now
      (by simpa [pushSample] using hT) (by simpa [pushSample] using hG)
      (by simpa [pushSample] using hC) (by simpa [pushSample] using hu) hin
      (by simpa [pushSample] using hconf) (by simpa [pushSample] using heq)
    rw [update_eq, he]

/-- C7 witness: a three-member radio group, button 1 armed at 1000 and
confirmed at 1300 while the active member is 2. -/
theorem c7_witness :
    ((runBtn [1, 2, 3] (mkWorld 1 0 3 0 1 10 20 2) [(15, 1000)]).1.btn.buttonId ≠
        (runBtn [1, 2, 3] (mkWorld 1 0 3 0 1 10 20 2) [(15, 1000)]).1.currRadioId →
      (TouchlessButton.update [1, 2, 3]
          (runBtn [1, 2, 3] (mkWorld 1 0 3 0 1 10 20 2) [(15, 1000)]).1 15 1300).2 =
        [1, 2, 3].map (fun m =>
          if m = (runBtn [1, 2, 3] (mkWorld 1 0 3 0 1 10 20 2) [(15, 1000)]).1.btn.buttonId then
            (m, (pushSample (runBtn [1, 2, 3] (mkWorld 1 0 3 0 1 10 20 2) [(15, 1000)]).1.btn
              15).raFinal)
          else (m, 0))
      ∧ (TouchlessButton.update [1, 2, 3]
            (runBtn [1, 2, 3] (mkWorld 1 0 3 0 1 10 20 2) [(15, 1000)]).1 15 1300).1.currRadioId =
          (runBtn [1, 2, 3] (mkWorld 1 0 3 0 1 10 20 2) [(15, 1000)]).1.btn.buttonId
      ∧ (TouchlessButton.update [1, 2, 3]
            (runBtn [1, 2, 3] (mkWorld 1 0 3 0 1 10 20 2) [(15, 1000)]).1 15 1300).1.btn.handRemoved
          = false)
    ∧ ((runBtn [1, 2, 3] (mkWorld 1 0 3 0 1 10 20 2) [(15, 1000)]).1.btn.buttonId =
        (runBtn [1, 2, 3] (mkWorld 1 0 3 0 1 10 20 2) [(15, 1000)]).1.currRadioId →
      (TouchlessButton.update [1, 2, 3]
          (runBtn [1, 2, 3] (mkWorld 1 0 3 0 1 10 20 2) [(15, 1000)]).1 15 1300).2 = []) :=
  c7_radio [1, 2, 3] (runBtn [1, 2, 3] (mkWorld 1 0 3 0 1 10 20 2) [(15, 1000)]).1 15 1300
    (by decide) (by decide) (by decide) (by decide) (by decide) (by decide) (by decide)
    (by decide) (by decide) (by decide)

/-- One-step unfolding of the post-state trace. -/
theorem btnStates_cons (group : List Int) (w : World) (p : Int × Int) (ps : List (Int × Int)) :
    btnStates group w (p :: ps) =
      (TouchlessButton.update group w p.1 p.2).1 ::
        btnStates group (TouchlessButton.update group w p.1 p.2).1 ps :=
  rfl

/-- One-step unfolding of the emitted events of a run. -/
theorem runBtn_cons_snd (group : List Int) (w : World) (p : Int × Int) (ps : List (Int × Int)) :
    (runBtn group w (p :: ps)).2 =
      (TouchlessButton.update group w p.1 p.2).2 ++
        (runBtn group (TouchlessButton.update group w p.1 p.2).1 ps).2 :=
  rfl

/-- One-step unfolding of the final state of a run. -/
theorem runBtn_cons_fst (group : List Int) (w : World) (p : Int × Int) (ps : List (Int × Int)) :
    (runBtn group w (p :: ps)).1 =
      (runBtn group (TouchlessButton.update group w p.1 p.2).1 ps).1 :=
  rfl

/-- A run whose polls all leave the smoothed value out of range, starting
with the enter gate unarmed and the hand confirmed removed, emits nothing
and keeps the gate unarmed, the hand removed, and the configured delay. -/
theorem idle_run (group : List Int) : ∀ (ps : List (Int × Int)) (w : World),
    w.btn.unconfirmedTrigger = false → w.btn.handRemoved = true →
    (∀ s ∈ btnStates group w ps, ¬ inRangeState s.btn) →
    (runBtn group w ps).2 = []
    ∧ (runBtn group w ps).1.btn.unconfirmedTrigger = false
    ∧ (runBtn group w ps).1.btn.handRemoved = true
    ∧ (runBtn group w ps).1.btn.triggerConfirmDelay = w.btn.triggerConfirmDelay := by
  intro ps
  induction ps with
  | nil =>
    intro w hu hh _
    simp [runBtn, hu, hh]
  | cons p ps ih =>
    intro w hu hh hall
    have hhead : ¬ inRangeState ((TouchlessButton.update group w p.1 p.2).1.btn) := by
      apply hall
      rw [btnStates_cons]
      exact List.mem_cons_self _ _
    have hout : ¬ inRangeState (pushSample w.btn p.1) :=
      fun h => hhead ((inRangeState_update group w p.1 p.2).mpr h)
    have hstep := updCore_out_idle group (pushSample w.btn p.1) w.currRadioId p.2
      (by simpa [pushSample] using hh) hout
    have hupd : TouchlessButton.update group w p.1 p.2 =
        ({ btn := incCursor
            { pushSample w.btn p.1 with unconfirmedTrigger := false, sensorValue := 0 },
           currRadioId := w.currRadioId }, []) := by
      rw [update_eq, hstep]
    have h1 : (TouchlessButton.update group w p.1 p.2).1.btn.unconfirmedTrigger = false := by
      rw [hupd]
      simp [incCursor]
    have h2 : (TouchlessButton.update group w p.1 p.2).1.btn.handRemoved = true := by
      rw [hupd]
      simp [incCursor, pushSample, hh]
    have h3 : (TouchlessButton.update group w p.1 p.2).1.btn.triggerConfirmDelay =
        w.btn.triggerConfirmDelay := by
      rw [hupd]
      simp [incCursor, pushSample]
    have htail : ∀ s ∈ btnStates group (TouchlessButton.update group w p.1 p.2).1 ps,
        ¬ inRangeState s.btn := by
      intro s hs
      apply hall
      rw [btnStates_cons]
      exact List.mem_cons_of_mem _ hs
    obtain ⟨e1, e2, e3, e4⟩ := ih (TouchlessButton.update group w p.1 p.2).1 h1 h2 htail
    have hev : (TouchlessButton.update group w p.1 p.2).2 = [] := by rw [hupd]
    refine ⟨?_, ?_, ?_, ?_⟩
    · rw [runBtn_cons_snd, hev, e1]
      rfl
    · rw [runBtn_cons_fst]
      exact e2
    · rw [runBtn_cons_fst]
      exact e3
    · rw [runBtn_cons_fst, e4, h3]

/-- A run whose polls all keep the smoothed value in range, entered with
the gate armed at time tk, emits nothing as long as every poll time stays
within the confirm delay of tk. -/
theorem held_run (group : List Int) : ∀ (ps : List (Int × Int)) (w : World) (tk D : Int),
    w.btn.unconfirmedTrigger = true →
    w.btn.lastUnconfirmedTriggerTime = tk →
    w.btn.triggerConfirmDelay = D →
    (∀ s ∈ btnStates group w ps, inRangeState s.btn) →
    (∀ q ∈ ps, ¬(q.2 - tk > D)) →
    (runBtn group w ps).2 = [] := by
  intro ps
  induction ps with
  | nil =>
    intro w tk D _ _ _ _ _
    simp [runBtn]
  | cons p ps ih =>
    intro w tk D hu hl hD hall hdur
    have hhead : inRangeState ((TouchlessButton.update group w p.1 p.2).1.btn) := by
      apply hall
      rw [btnStates_cons]
      exact List.mem_cons_self _ _
    have hin : inRangeState (pushSample w.btn p.1) :=
      (inRangeState_update group w p.1 p.2).mp hhead
    have hlt : ¬(p.2 - (pushSample w.btn p.1).lastUnconfirmedTriggerTime >
        (pushSample w.btn p.1).triggerConfirmDelay) := by
      have hq := hdur p (List.mem_cons_self _ _)
      simpa [pushSample, hl, hD] using hq
    have hstep := updCore_held group (pushSample w.btn p.1) w.currRadioId p.2
      (by simpa [pushSample] using hu) hin hlt
    have hupd : TouchlessButton.update group w p.1 p.2 =
        ({ btn := incCursor (pushSample w.btn p.1), currRadioId := w.currRadioId }, []) := by
      rw [update_eq, hstep]
    have h1 : (TouchlessButton.update group w p.1 p.2).1.btn.unconfirmedTrigger = true := by
      rw [hupd]
      simp [incCursor, pushSample, hu]
    have h2 : (TouchlessButton.update group w p.1 p.2).1.btn.lastUnconfirmedTriggerTime = tk := by
      rw [hupd]
      simp [incCursor, pushSample, hl]
    have h3 : (TouchlessButton.update group w p.1 p.2).1.btn.triggerConfirmDelay = D := by
      rw [hupd]
      simp [incCursor, pushSample, hD]
    have htail : ∀ s ∈ btnStates group (TouchlessButton.update group w p.1 p.2).1 ps,
        inRangeState s.btn := by
      intro s hs
      apply hall
      rw [btnStates_cons]
      exact List.mem_cons_of_mem _ hs
    have hdur2 : ∀ q ∈ ps, ¬(q.2 - tk > D) := fun q hq => hdur q (List.mem_cons_of_mem _ hq)
    have e1 := ih (TouchlessButton.update group w p.1 p.2).1 tk D h1 h2 h3 htail hdur2
    have hev : (TouchlessButton.update group w p.1 p.2).2 = [] := by rw [hupd]
    rw [runBtn_cons_snd, hev, e1]
    rfl

/-- Events of a run split at a list concatenation. -/
theorem runBtn_append (group : List Int) : ∀ (xs ys : List (Int × Int)) (w : World),
    (runBtn group w (xs ++ ys)).2 =
      (runBtn group w xs).2 ++ (runBtn group (runBtn group w xs).1 ys).2 := by
  intro xs
  induction xs with
  | nil =>
    intro ys w
    simp [runBtn]
  | cons p xs ih =>
    intro ys w
    rw [List.cons_append, runBtn_cons_snd, ih ys (TouchlessButton.update group w p.1 p.2).1,
      runBtn_cons_snd, runBtn_cons_fst, List.append_assoc]

/-- C1: starting from construction (any behavior code, any smoothing
length, any thresholds), for a poll sequence whose smoothed value is out
of range on every poll of the prefix and in range on every poll from the
first in-range poll p0 onward, with every later poll time strictly less
than triggerConfirmDelay = 200 ms after the time of p0, no
onButtonTriggered event is ever emitted; the first in-range poll only arms
the unconfirmed-trigger gate, recording its poll time. -/
theorem c1_no_early_trigger (group : List Int) (id pin behavior t0c lo hi curr0 : Int) (n : Nat)
    (pre rest : List (Int × Int)) (p0 : Int × Int)
    (hpre : ∀ s ∈ btnStates group (mkWorld id pin behavior t0c n lo hi curr0) pre,
      ¬ inRangeState s.btn)
    (hin : ∀ s ∈ btnStates group
        (runBtn group (mkWorld id pin behavior t0c n lo hi curr0) pre).1 (p0 :: rest),
      inRangeState s.btn)
    (hdur : ∀ q ∈ rest, q.2 - p0.2 < 200) :
    (runBtn group (mkWorld id pin behavior t0c n lo hi curr0) (pre ++ p0 :: rest)).2 = []
    ∧ (TouchlessButton.update group
        (runBtn group (mkWorld id pin behavior t0c n lo hi curr0) pre).1 p0.1
        p0.2).1.btn.unconfirmedTrigger = true
    ∧ (TouchlessButton.update group
        (runBtn group (mkWorld id pin behavior t0c n lo hi curr0) pre).1 p0.1
        p0.2).1.btn.lastUnconfirmedTriggerTime = p0.2 := by
  obtain ⟨-, -, -, hu0, hh0, hd0⟩ := mkWorld_fields id pin behavior t0c n lo hi curr0
  obtain ⟨e1, e2, e3, e4⟩ :=
    idle_run group pre (mkWorld id pin behavior t0c n lo hi curr0) hu0 hh0 hpre
  have hin0 : inRangeState
      (pushSample (runBtn group (mkWorld id pin behavior t0c n lo hi curr0) pre).1.btn p0.1) := by
    have hs := hin _ (by rw [btnStates_cons]; exact List.mem_cons_self _ _)
    exact (inRangeState_update group _ p0.1 p0.2).mp hs
  have hstep := updCore_arm group
    (pushSample (runBtn group (mkWorld id pin behavior t0c n lo hi curr0) pre).1.btn p0.1)
    (runBtn group (mkWorld id pin behavior t0c n lo hi curr0) pre).1.currRadioId p0.2
    (by simpa [pushSample] using e2) hin0
  have hupd : TouchlessButton.update group
      (runBtn group (mkWorld id pin behavior t0c n lo hi curr0) pre).1 p0.1 p0.2 =
      ({ btn := incCursor
          { pushSample (runBtn group (mkWorld id pin behavior t0c n lo hi curr0) pre).1.btn p0.1
            with unconfirmedTrigger := true, lastUnconfirmedTriggerTime := p0.2 },
         currRadioId :=
          (runBtn group (mkWorld id pin behavior t0c n lo hi curr0) pre).1.currRadioId }, []) := by
    rw [update_eq, hstep]
  have a1 : (TouchlessButton.update group
      (runBtn group (mkWorld id pin behavior t0c n lo hi curr0) pre).1 p0.1
      p0.2).1.btn.unconfirmedTrigger = true := by
    rw [hupd]
    simp [incCursor]
  have a2 : (TouchlessButton.update group
      (runBtn group (mkWorld id pin behavior t0c n lo hi curr0) pre).1 p0.1
      p0.2).1.btn.lastUnconfirmedTriggerTime = p0.2 := by
    rw [hupd]
    simp [incCursor]
  have a3 : (TouchlessButton.update group
      (runBtn group (mkWorld id pin behavior t0c n lo hi curr0) pre).1 p0.1
      p0.2).1.btn.triggerConfirmDelay = 200 := by
    rw [hupd]
    simp only [incCursor]
    simp [pushSample]
    rw [e4, hd0]
  have htail : ∀ s ∈ btnStates group
      (TouchlessButton.update group
        (runBtn group (mkWorld id pin behavior t0c n lo hi curr0) pre).1 p0.1 p0.2).1 rest,
      inRangeState s.btn := by
    intro s hs
    apply hin
    rw [btnStates_cons]
    exact List.mem_cons_of_mem _ hs
  have hdur2 : ∀ q ∈ rest, ¬(q.2 - p0.2 > (200:Int)) := by
    intro q hq
    have := hdur q hq
    omega
  have e5 := held_run group rest
    (TouchlessButton.update group
      (runBtn group (mkWorld id pin behavior t0c n lo hi curr0) pre).1 p0.1 p0.2).1
    p0.2 200 a1 a2 a3 htail hdur2
  refine ⟨?_, a1, a2⟩
  rw [runBtn_append group pre (p0 :: rest), e1, runBtn_cons_snd]
  have hev : (TouchlessButton.update group
      (runBtn group (mkWorld id pin behavior t0c n lo hi curr0) pre).1 p0.1 p0.2).2 = [] := by
    rw [hupd]
  rw [hev, e5]
  rfl

/-- C1 witness: momentary button, thresholds 10..20, smoothing length 1;
one out-of-range poll, then in-range polls at 100 and 200, both within
200 ms of the first in-range poll. -/
theorem c1_witness :
    (runBtn [] (mkWorld 1 0 1 0 1 10 20 0) ([(50, 0)] ++ (15, 100) :: [(15, 200)])).2 = []
    ∧ (TouchlessButton.update []
        (runBtn [] (mkWorld 1 0 1 0 1 10 20 0) [(50, 0)]).1 (15:Int)
        (100:Int)).1.btn.unconfirmedTrigger = true
    ∧ (TouchlessButton.update []
        (runBtn [] (mkWorld 1 0 1 0 1 10 20 0) [(50, 0)]).1 (15:Int)
        (100:Int)).1.btn.lastUnconfirmedTriggerTime = (100:Int) :=
  c1_no_early_trigger [] 1 0 1 0 10 20 0 1 [(50, 0)] [(15, 200)] (15, 100)
    (by decide) (by decide) (by decide)
